import Mathlib

/-
  Verification development for the waveforms repository.

  The Python sources are shallowly embedded below.  Exact rational numbers
  (ℚ) stand in for Python float arithmetic wherever the programs only use
  field operations and comparisons, and ℝ is used where the source calls
  transcendental functions (math.sin, math.cos, 2**x with fractional
  exponents).  Special float values (inf, -inf, NaN) are embedded with an
  explicit sum type, and code that can raise a Python exception is embedded
  with Option / Except.
-/

namespace Waveforms

/-- FloatVal models a Python float value including the special values
+inf, -inf and NaN, with an exact rational (or real) payload for the
finite case. -/
inductive FloatVal (α : Type) where
  | num (x : α)
  | posInf
  | negInf
  | nan
deriving DecidableEq

/-- pyGT models the Python comparison x > y on float values: any
comparison that involves NaN is false, and the infinities compare in the
usual way. -/
def pyGT {α : Type} [LinearOrder α] : FloatVal α → FloatVal α → Bool
  | .num a, .num b => a > b
  | .posInf, .num _ => true
  | .posInf, .negInf => true
  | .num _, .negInf => true
  | _, _ => false

/-- pyLT models the Python comparison x < y on float values: any
comparison that involves NaN is false. -/
def pyLT {α : Type} [LinearOrder α] : FloatVal α → FloatVal α → Bool
  | .num a, .num b => a < b
  | .negInf, .num _ => true
  | .negInf, .posInf => true
  | .num _, .posInf => true
  | _, _ => false

/-- Embedding of sanitize from src/utils/base.py (lines 41-61), exactly as
written in the source: `if x > 1: return +1`, `if x < 1: return -1`,
`if math.isnan(x): return 0`, `return x`.  Note the second comparison in
the source really is `x < 1`. -/
def sanitize (x : FloatVal ℚ) : FloatVal ℚ :=
  if pyGT x (.num 1) then .num 1
  else if pyLT x (.num 1) then .num (-1)
  else if x = .nan then .num 0
  else x

/-- rawDiv models the bare Python division operator, which raises
ZeroDivisionError when the denominator is zero. -/
def rawDiv {α : Type} [DivisionRing α] [DecidableEq α] (a b : α) : Except String α :=
  if b = 0 then .error "ZeroDivisionError" else .ok (a / b)

/-- Embedding of safe_division from src/utils/base.py (lines 63-89): when
the denominator is zero the function returns +inf, -inf or NaN according
to the sign of the numerator; otherwise it performs the bare division. -/
def safe_division {α : Type} [LinearOrderedField α] (num den : α) :
    Except String (FloatVal α) :=
  if den = 0 then
    if num > 0 then .ok .posInf
    else if num < 0 then .ok .negInf
    else .ok .nan
  else (rawDiv num den).map .num

/-- Embedding of sin from src/utils/base.py (lines 5-21):
`math.sin(2*math.pi*f*t)`. -/
noncomputable def sin (t f : ℝ) : ℝ := Real.sin (2 * Real.pi * f * t)

/-- Embedding of cos from src/utils/base.py (lines 23-39):
`math.cos(2*math.pi*f*t)`. -/
noncomputable def cos (t f : ℝ) : ℝ := Real.cos (2 * Real.pi * f * t)

/-- Embedding of tan from src/utils/base.py (lines 91-106): the optional
second frequency defaults to the first, and the quotient is taken through
safe_division. -/
noncomputable def tan (t f1 : ℝ) (f2 : Option ℝ) : Except String (FloatVal ℝ) :=
  safe_division (sin t f1) (cos t (f2.getD f1))

/-- pyMod models the Python `%` operator on (non-zero divisor) numbers:
the remainder of floor division, so the result carries the sign of the
divisor. -/
def pyMod (a b : ℚ) : ℚ := a - b * (⌊a / b⌋ : ℚ)

/-- Embedding of mod from src/utils/base.py (lines 145-168) restricted to
non-complex (int/float) arguments.  On such arguments the two
`isinstance(..., complex)` branches of the source (lines 162-165) are
identity, so the function reduces to: return 0 when b == 0, otherwise the
bare Python remainder `a % b`. -/
def mod (a b : ℚ) : ℚ :=
  if b = 0 then 0 else pyMod a b

/-- Embedding of get_freq_from_interval from src/utils/base.py (lines
170-188): `base_note * 2**(note_interval/12)` with real exponentiation. -/
noncomputable def get_freq_from_interval (base_note : ℝ) (note_interval : ℚ) : ℝ :=
  base_note * (2 : ℝ) ^ (((note_interval / 12 : ℚ) : ℝ))

/-- listGetPy models the Python list indexing operation `l[i]` for an
integer index: indices in [0, len) select from the front, indices in
[-len, 0) select from the end, and anything else raises IndexError
(embedded as none). -/
def listGetPy {α : Type} (l : List α) (i : ℤ) : Option α :=
  if 0 ≤ i then l.get? i.toNat
  else if 0 ≤ (l.length : ℤ) + i then l.get? ((l.length : ℤ) + i).toNat
  else none

/-- Embedding of get_freq_from_scale_degree from src/utils/base.py (lines
190-207): `get_freq_from_interval(base_note, scale[i])`, with the Python
indexing of `scale[i]` made explicit (IndexError becomes none). -/
noncomputable def get_freq_from_scale_degree (i : ℤ) (base_note : ℝ)
    (scale : List ℚ) : Option ℝ :=
  (listGetPy scale i).map (get_freq_from_interval base_note)

/-- pyFind models the Python method str.find for a single character:
the index of the first occurrence, or none for the -1 result. -/
def pyFind : List Char → Char → Option ℕ
  | [], _ => none
  | x :: xs, c => if x = c then some 0 else (pyFind xs c).map Nat.succ

/-- digitsVal evaluates a nonempty all-digit string to the natural number
it denotes; any other string is rejected (none). -/
def digitsVal (s : List Char) : Option ℕ :=
  if s ≠ [] ∧ s.all Char.isDigit then
    some (s.foldl (fun acc c => 10 * acc + (c.toNat - 48)) 0)
  else none

/-- pyInt models the Python conversion int(str) restricted to the forms a
note string can contain: an optional sign followed by decimal digits.
A string of any other shape raises ValueError (embedded as none). -/
def pyInt (s : List Char) : Option ℤ :=
  match s with
  | '-' :: rest => (digitsVal rest).map (fun n => -(n : ℤ))
  | '+' :: rest => (digitsVal rest).map (fun n => (n : ℤ))
  | _ => (digitsVal s).map (fun n => (n : ℤ))

/-- decimalVal evaluates an unsigned decimal literal (digits, optionally
with one decimal point) to an exact rational. -/
def decimalVal (s : List Char) : Option ℚ :=
  let ip := s.takeWhile (fun c => c ≠ '.')
  let rest := s.dropWhile (fun c => c ≠ '.')
  match rest with
  | [] => (digitsVal s).map (fun n => (n : ℚ))
  | _ :: fp =>
      if ip.all Char.isDigit ∧ fp.all Char.isDigit ∧ (ip ≠ [] ∨ fp ≠ []) then
        some ((ip.foldl (fun acc c => 10 * acc + (c.toNat - 48)) 0 : ℕ)
          + (fp.foldl (fun acc c => 10 * acc + (c.toNat - 48)) 0 : ℕ)
            / (10 ^ fp.length : ℚ))
      else none

/-- pyFloat models the Python conversion float(str) restricted to signed
decimal literals, the only forms the cents suffix of a note string can
take.  Any other shape raises ValueError (embedded as none). -/
def pyFloat (s : List Char) : Option ℚ :=
  match s with
  | '-' :: rest => (decimalVal rest).map Neg.neg
  | '+' :: rest => decimalVal rest
  | _ => decimalVal s

namespace Note

/-- Embedding of the Note.base_notes table from src/utils/score.py
(lines 15-33): the 17 base-note tokens and their semitone offsets. -/
def base_notes : List (List Char × ℤ) :=
  [ (['C'], -9), (['C', '#'], -8), (['D', 'b'], -8), (['D'], -7),
    (['D', '#'], -6), (['E', 'b'], -6), (['E'], -5), (['F'], -4),
    (['F', '#'], -3), (['G', 'b'], -3), (['G'], -2), (['G', '#'], -1),
    (['A', 'b'], -1), (['A'], 0), (['A', '#'], 1), (['B', 'b'], 1),
    (['B'], 2) ]

/-- lookupBase models the Python dict lookup Note.base_notes[key]; a
missing key raises KeyError (embedded as none). -/
def lookupBase (k : List Char) : Option ℤ :=
  (base_notes.find? (fun p => p.1 == k)).map Prod.snd

/-- parseNote computes the exponent `octave_shift + semitone_shift/12 +
cent_shift/1200` of Note.note_str2freq from src/utils/score.py (lines
35-81), following the source step by step: the base-note token is the
two-character head when it ends in a sharp or flat sign and the
one-character head otherwise; the cents marker is the first plus sign if
any, else the first minus sign; the octave field is everything between
the base-note token and the cents marker (or the end of the string).
Any KeyError or ValueError along the way is embedded as none. -/
def parseNote (note : List Char) : Option ℚ := do
  let bn2 := note.take 2
  let base_note :=
    if bn2.getLast? = some '#' ∨ bn2.getLast? = some 'b' then bn2
    else note.take 1
  let semitone_shift ← lookupBase base_note
  let i_cents : Option ℕ :=
    match pyFind note '+' with
    | some i => some i
    | none => pyFind note '-'
  let cent_shift : ℚ ←
    match i_cents with
    | none => pure 0
    | some i => pyFloat (note.drop i)
  let octave_str :=
    match i_cents with
    | none => note.drop base_note.length
    | some e => (note.take e).drop base_note.length
  let octave ← pyInt octave_str
  pure (((octave - 4 : ℤ) : ℚ) + (semitone_shift : ℚ) / 12 + cent_shift / 1200)

/-- Embedding of Note.note_str2freq from src/utils/score.py (lines
35-81): `440 * 2**(octave_shift + semitone_shift/12 + cent_shift/1200)`,
the exponent being computed by parseNote exactly as in the source. -/
noncomputable def note_str2freq (note : List Char) : Option ℝ :=
  (parseNote note).map (fun e => 440 * (2 : ℝ) ^ ((e : ℝ)))

end Note

/-- State of a PresetScore object from src/utils/score.py (lines
118-172): the ended flag, the two remaining-note queues, the residual
duration of the current note (initially -1) and the current pitch.  The
source only assigns `_current_note` before its first read (the initial
residual -1 forces a dequeue on the first call), so the field starts at
an arbitrary 0 here. -/
structure PresetScore where
  score_end : Bool
  durations : List ℚ
  frequencies : List ℚ
  residual : ℚ
  current : ℚ
deriving DecidableEq

/-- Embedding of PresetScore.__init__ from src/utils/score.py (lines
133-147), taking the notes as (pitch, duration) pairs. -/
def PresetScore.init (notes : List (ℚ × ℚ)) : PresetScore :=
  { score_end := false
    durations := notes.map Prod.snd
    frequencies := notes.map Prod.fst
    residual := -1
    current := 0 }

/-- Embedding of PresetScore.get_note from src/utils/score.py (lines
149-172).  When the residual duration is negative the next note is
dequeued; an empty queue (IndexError) sets the ended flag and returns
silence, leaving whatever the try block already mutated in place.
Otherwise the residual is decremented by dt and the current pitch is
returned with the ended flag cleared. -/
def PresetScore.get_note (s : PresetScore) (dt : ℚ) : ℚ × PresetScore :=
  if s.residual < 0 then
    match s.frequencies, s.durations with
    | [], _ => (0, { s with score_end := true })
    | f :: fs, [] => (0, { s with current := f, frequencies := fs, score_end := true })
    | f :: fs, d :: ds =>
        (f, { s with current := f, frequencies := fs, durations := ds,
                     residual := d - dt, score_end := false })
  else
    (s.current, { s with residual := s.residual - dt, score_end := false })

/-- run drives a PresetScore through a list of get_note(dt) calls,
recording for each call the returned pitch and the ended flag as
observable after the call. -/
def PresetScore.run (s : PresetScore) : List ℚ → List (ℚ × Bool) × PresetScore
  | [] => ([], s)
  | dt :: rest =>
      let p := s.get_note dt
      let q := p.2.run rest
      ((p.1, p.2.score_end) :: q.1, q.2)

/-- The four non-idle statuses of the ADSR envelope from
src/utils/envelope.py (lines 42-45); the idle status is the Python None,
embedded as Option.none. -/
inductive AdsrStatus where
  | attack
  | decay
  | sustain
  | release
deriving DecidableEq

/-- State of an ADSR object from src/utils/envelope.py (lines 14-78):
the four configuration values, the external pressed flag, the status
(none is the Python None), the elapsed time `_t` in the current status
and the dead `_cur_vol` field which press assigns but nothing reads.
The source leaves `_t` and `_cur_vol` unset until the first press; they
are only ever read with a non-idle status, which press establishes
together with them, so they start at an arbitrary 0 here. -/
structure ADSR where
  attack : ℚ
  decay : ℚ
  sustain : ℚ
  release : ℚ
  pressed : Bool
  status : Option AdsrStatus
  t : ℚ
  cur_vol : ℚ
deriving DecidableEq

/-- Embedding of ADSR.__init__ from src/utils/envelope.py (lines 47-66). -/
def ADSR.init (attack decay sustain release : ℚ) : ADSR :=
  { attack := attack, decay := decay, sustain := sustain, release := release
    pressed := false, status := none, t := 0, cur_vol := 0 }

/-- Embedding of ADSR.press from src/utils/envelope.py (lines 68-74). -/
def ADSR.press (s : ADSR) : ADSR :=
  { s with status := some .attack, t := 0, cur_vol := 0, pressed := true }

/-- Embedding of ADSR.unpress from src/utils/envelope.py (lines 76-78). -/
def ADSR.unpress (s : ADSR) : ADSR :=
  { s with pressed := false }

/-- Embedding of ADSR.get_amplitude from src/utils/envelope.py (lines
80-124).  Each armed branch first forms the linear-ramp value `ret`,
then checks `self._t > threshold`; on a transition it resets `_t`,
moves the status on and returns its fixed boundary value without adding
dt, otherwise it adds dt to `_t` and returns `ret`.  The ValueError arm
of the source is unreachable because the status is one of None and the
four enum values. -/
def ADSR.get_amplitude (s : ADSR) (dt : ℚ) : ℚ × ADSR :=
  match s.status with
  | none => (0, s)
  | some .attack =>
      if s.attack < s.t then (1, { s with t := 0, status := some .decay })
      else (s.t / s.attack, { s with t := s.t + dt })
  | some .decay =>
      if s.decay < s.t then (s.sustain, { s with t := 0, status := some .sustain })
      else (1 - (1 - s.sustain) * s.t / s.decay, { s with t := s.t + dt })
  | some .sustain =>
      if s.pressed then (s.sustain, s)
      else (s.sustain, { s with status := some .release, t := 0 })
  | some .release =>
      if s.release < s.t then (0, { s with t := 0, status := none })
      else (s.sustain * (1 - s.t / s.release), { s with t := s.t + dt })

/-- One external event applied to an ADSR envelope: a press, an unpress
or a get_amplitude(dt) call. -/
inductive AdsrOp where
  | press
  | unpress
  | amp (dt : ℚ)
deriving DecidableEq

/-- run drives an ADSR envelope through a list of events, collecting the
amplitudes returned by the get_amplitude calls in order. -/
def ADSR.run (s : ADSR) : List AdsrOp → List ℚ × ADSR
  | [] => ([], s)
  | AdsrOp.press :: ops => s.press.run ops
  | AdsrOp.unpress :: ops => s.unpress.run ops
  | AdsrOp.amp dt :: ops =>
      let p := s.get_amplitude dt
      let q := p.2.run ops
      (p.1 :: q.1, q.2)

/-- A configuration knob of ScaleRandomPlayer from src/utils/score.py:
the base note and the duration bounds may each be a constant or a
zero-argument callable. -/
inductive Knob where
  | const (v : ℚ)
  | func (f : Unit → ℚ)

/-- Embedding of ScaleRandomPlayer._get_or_call from src/utils/score.py
(lines 212-216). -/
def getOrCall : Knob → ℚ
  | .const v => v
  | .func f => f ()

/-- RandomSource models the Python random.Random class: a deterministic
pseudo-random generator with an explicit state, created from a seed and
queried through uniform and choice.  The Python choice raises IndexError
on an empty sequence, a case no claim exercises, so the model keeps it
total. -/
structure RandomSource (σ : Type) where
  fromSeed : ℕ → σ
  uniform : σ → ℚ → ℚ → ℚ × σ
  choice : σ → List ℚ → ℚ × σ

/-- State of a ScaleRandomPlayer object from src/utils/score.py (lines
174-210): the owned random generator state, the scale, the three
configuration knobs, and the residual duration and pitch of the current
note (both None until the first draw). -/
structure ScaleRandomPlayer (σ : Type) where
  rnd : σ
  scale : List ℚ
  base_note : Knob
  min_note_duration : Knob
  max_note_duration : Knob
  note_duration : Option ℚ
  note_freq : Option ℝ

/-- Embedding of ScaleRandomPlayer.__init__ from src/utils/score.py
(lines 184-210): the generator state is random.Random(seed). -/
def ScaleRandomPlayer.init {σ : Type} (R : RandomSource σ) (scale : List ℚ)
    (base_note : Knob) (seed : ℕ) (minD maxD : Knob) : ScaleRandomPlayer σ :=
  { rnd := R.fromSeed seed, scale := scale, base_note := base_note
    min_note_duration := minD, max_note_duration := maxD
    note_duration := none, note_freq := none }

/-- Embedding of ScaleRandomPlayer.get_note from src/utils/score.py
(lines 218-243).  When the residual duration is None or negative, the
three knobs are resolved, a fresh duration is drawn uniformly from the
bounds, and a fresh pitch is drawn by a uniform choice of a scale degree
converted through get_freq_from_interval; the two random queries happen
in that order on the owned generator.  The residual duration is then
decremented by dt and the current pitch is returned. -/
noncomputable def ScaleRandomPlayer.get_note {σ : Type} (R : RandomSource σ)
    (s : ScaleRandomPlayer σ) (dt : ℚ) : Option ℝ × ScaleRandomPlayer σ :=
  let s1 :=
    if s.note_duration.elim true (fun d => d < 0) then
      let base := getOrCall s.base_note
      let minD := getOrCall s.min_note_duration
      let maxD := getOrCall s.max_note_duration
      let u := R.uniform s.rnd minD maxD
      let c := R.choice u.2 s.scale
      { s with rnd := c.2, note_duration := some u.1
               note_freq := some (get_freq_from_interval (base : ℝ) c.1) }
    else s
  let s2 := { s1 with note_duration := s1.note_duration.map (fun d => d - dt) }
  (s2.note_freq, s2)

/-- run drives a ScaleRandomPlayer through a list of get_note(dt) calls,
recording for each call the returned pitch and the internal residual
note duration left after the call. -/
noncomputable def ScaleRandomPlayer.run {σ : Type} (R : RandomSource σ)
    (s : ScaleRandomPlayer σ) :
    List ℚ → List (Option ℝ × Option ℚ) × ScaleRandomPlayer σ
  | [] => ([], s)
  | dt :: rest =>
      let p := ScaleRandomPlayer.get_note R s dt
      let q := ScaleRandomPlayer.run R p.2 rest
      ((p.1, p.2.note_duration) :: q.1, q.2)

/-- byteToBits is the inner loop of float2bits from
src/wave002/waveform.py (lines 5-10): one byte becomes its eight bits,
most significant first. -/
def byteToBits (byte : ℕ) : List ℕ :=
  [7, 6, 5, 4, 3, 2, 1, 0].map (fun i => if byte &&& (1 <<< i) ≠ 0 then 1 else 0)

/-- pack models struct.Struct("<f").pack at the bit-pattern level: a
single-precision float whose 32-bit pattern is n is stored as these four
bytes, least significant byte first (little endian). -/
def pack (n : ℕ) : List ℕ :=
  [n % 256, n / 256 % 256, n / 65536 % 256, n / 16777216 % 256]

/-- Embedding of float2bits from src/wave002/waveform.py (lines 5-10),
operating on the 32-bit pattern of the float: every byte of the packed
little-endian representation is expanded to its bits, most significant
bit of each byte first. -/
def float2bits (n : ℕ) : List ℕ := (pack n).flatMap byteToBits

/-- bitsToByte is the inner loop of bits2float from
src/wave002/waveform.py (lines 26-34): eight bits, most significant
first, are folded back into one byte. -/
def bitsToByte (bits : List ℕ) : ℕ :=
  ((bits.zip [7, 6, 5, 4, 3, 2, 1, 0]).foldl (fun x p => x + p.1 * (1 <<< p.2)) 0)

/-- unpack models struct.Struct("<f").unpack at the bit-pattern level:
four little-endian bytes are recombined into the 32-bit pattern. -/
def unpack (bs : List ℕ) : ℕ :=
  match bs with
  | [b0, b1, b2, b3] => b0 + 256 * b1 + 65536 * b2 + 16777216 * b3
  | _ => 0

/-- Embedding of bits2float from src/wave002/waveform.py (lines 26-34),
operating on the 32-bit pattern of the float: the slices bits[0:8],
bits[8:16], bits[16:24], bits[24:32] are folded into four bytes and
unpacked little endian. -/
def bits2float (bits : List ℕ) : ℕ :=
  unpack [bitsToByte ((bits.drop 0).take 8), bitsToByte ((bits.drop 8).take 8),
          bitsToByte ((bits.drop 16).take 8), bitsToByte ((bits.drop 24).take 8)]

/-- The event sequence of the C2 envelope scenario: construct with
attack=0.1, decay=0.1, sustain=0.5, release=0.2, press, advance 30 ticks
of dt=0.01 (11 attack ramp ticks, the two boundary ticks emitting 1, the
decay ramp, and 6 sustain ticks), unpress, then advance 22 further
ticks. -/
def c2ops : List AdsrOp :=
  AdsrOp.press :: (List.replicate 30 (AdsrOp.amp (1 / 100)) ++
    (AdsrOp.unpress :: List.replicate 22 (AdsrOp.amp (1 / 100))))

/-- Claim C3, failing-input evaluation: sanitize maps 0.5 to -1 instead
of returning it unchanged, because the source tests `x < 1` where its
docstring (clamping between -1 and +1) requires `x < -1`; the NaN clause
of the claim does hold (NaN maps to the finite value 0). -/
theorem sanitize_bug_eval :
    sanitize (.num (1 / 2)) = .num (-1) ∧ sanitize .nan = .num 0 := by
  norm_num [sanitize, pyGT, pyLT]

/-- Claim C4, failing-input evaluation: mod applies no absolute value to
non-complex arguments, so mod(-3, 5) is the Python remainder 2 rather
than the docstring value |-3| mod |5| = 3, and mod(3, -5) is the
negative value -2, contradicting the claim that the result is never
negative. -/
theorem mod_bug_eval : mod (-3) 5 = 2 ∧ mod 3 (-5) = -2 := by
  norm_num [mod, pyMod]

/-- safe_division never reaches the bare division with a zero
denominator, so it never returns the ZeroDivisionError outcome. -/
lemma safe_division_ok {α : Type} [LinearOrderedField α] (a b : α) :
    ∃ v, safe_division a b = .ok v := by
  unfold safe_division rawDiv
  split_ifs
  · exact ⟨_, rfl⟩
  · exact ⟨_, rfl⟩
  · exact ⟨_, rfl⟩
  · exact ⟨.num (a / b), by simp [Except.map]⟩

/-- Claim C6: safe_division resolves 5/0 to +inf, -5/0 to -inf and 0/0
to NaN, returns the exact quotient for every nonzero denominator, and
the tangent (the one oscillator built from a division) never raises a
ZeroDivisionError for any time and frequencies. -/
theorem safe_divide_spec :
    safe_division (5 : ℚ) 0 = .ok .posInf ∧
    safe_division (-5 : ℚ) 0 = .ok .negInf ∧
    safe_division (0 : ℚ) 0 = .ok .nan ∧
    (∀ a b : ℚ, b ≠ 0 → safe_division a b = .ok (.num (a / b))) ∧
    (∀ (t f1 : ℝ) (f2 : Option ℝ), ∃ v, tan t f1 f2 = .ok v) := by
  refine ⟨by norm_num [safe_division], by norm_num [safe_division],
    by norm_num [safe_division], ?_, ?_⟩
  · intro a b hb
    simp [safe_division, rawDiv, hb, Except.map]
  · intro t f1 f2
    exact safe_division_ok _ _

/-- Witness for C6 at the concrete nonzero denominator 2. -/
theorem safe_divide_spec_witness :
    safe_division (3 : ℚ) 2 = .ok (.num (3 / 2)) :=
  safe_divide_spec.2.2.2.1 3 2 (by norm_num)

/-- Claim C1 is false on the code: with notes (440, 1.0) and (880, 1.0)
and dt = 0.5 the first FOUR get_note calls return 440, 440, 440, 880 —
each 1.0-second note survives three calls, because a note is only
dequeued once its residual duration has dropped strictly below zero —
and not 440, 440, 880, 880 as the claim states. -/
theorem presetScore_claim_false :
    ((PresetScore.init [(440, 1), (880, 1)]).run
        [1 / 2, 1 / 2, 1 / 2, 1 / 2]).1.map Prod.fst = [440, 440, 440, 880] ∧
    ((PresetScore.init [(440, 1), (880, 1)]).run
        [1 / 2, 1 / 2, 1 / 2, 1 / 2]).1.map Prod.fst ≠ [440, 440, 880, 880] := by
  norm_num [PresetScore.run, PresetScore.get_note, PresetScore.init]

/-- Once a PresetScore has run out of notes with a negative residual
duration and its ended flag raised, every further call returns silence 0
with the ended flag still true. -/
lemma PresetScore.run_ended (s : PresetScore) (h1 : s.residual < 0)
    (h2 : s.frequencies = []) (k : ℕ) (dt : ℚ) :
    (s.run (List.replicate k dt)).1 = List.replicate k ((0 : ℚ), true) := by
  induction k generalizing s with
  | zero => simp [PresetScore.run]
  | succ n ih =>
      have hstep : s.get_note dt = (0, { s with score_end := true }) := by
        rw [PresetScore.get_note, if_pos h1, h2]
      rw [List.replicate_succ, PresetScore.run, hstep, List.replicate_succ]
      simpa using ih { s with score_end := true } h1 h2

/-- run distributes over list append: the second leg continues from the
state the first leg left behind. -/
lemma PresetScore.run_append (s : PresetScore) (l1 l2 : List ℚ) :
    s.run (l1 ++ l2) =
      ((s.run l1).1 ++ ((s.run l1).2.run l2).1, ((s.run l1).2.run l2).2) := by
  induction l1 generalizing s with
  | nil => simp [PresetScore.run]
  | cons dt rest ih => simp [PresetScore.run, ih]

/-- Claim C1 amended: with notes (440, 1.0) and (880, 1.0) and dt = 0.5,
the first three calls return 440, the next three return 880 (a note is
dequeued only when the residual duration is strictly negative, which
grants each 1.0-second note three calls at dt = 0.5), and every
subsequent call returns 0 with score_end = true. -/
theorem presetScore_scenario_amended (k : ℕ) :
    ((PresetScore.init [(440, 1), (880, 1)]).run
        (List.replicate (6 + k) (1 / 2))).1 =
      [(440, false), (440, false), (440, false), (880, false), (880, false),
        (880, false)] ++ List.replicate k ((0 : ℚ), true) := by
  have h6 : (PresetScore.init [(440, 1), (880, 1)]).run (List.replicate 6 (1 / 2)) =
      ([(440, false), (440, false), (440, false), (880, false), (880, false),
        (880, false)],
       { score_end := false, durations := [], frequencies := [],
         residual := -(1 / 2), current := 880 }) := by
    norm_num [PresetScore.run, PresetScore.get_note, PresetScore.init,
      List.replicate]
  rw [List.replicate_add, PresetScore.run_append, h6]
  simp only [List.append_cancel_left_eq]
  exact PresetScore.run_ended _ (by norm_num) rfl k _

set_option maxRecDepth 10000 in
set_option maxHeartbeats 1000000 in
/-- Claim C2 is false on the code: in the scenario (attack=0.1,
decay=0.1, sustain=0.5, release=0.2, dt=0.01) the twenty amplitudes
returned after the unpress are 0.5, 0.5, 0.475, ..., 0.05 — the
sustain-to-release transition tick and the one-tick boundary lag delay
the ramp — so the amplitude does NOT reach 0 within 20 ticks (release
seconds) of the unpress. -/
theorem adsr_claim_false :
    ((((ADSR.init (1 / 10) (1 / 10) (1 / 2) (1 / 5)).run c2ops).1.drop 30).take 20 =
      ([1 / 2, 1 / 2, 19 / 40, 18 / 40, 17 / 40, 16 / 40, 15 / 40, 14 / 40,
        13 / 40, 12 / 40, 11 / 40, 10 / 40, 9 / 40, 8 / 40, 7 / 40, 6 / 40,
        5 / 40, 4 / 40, 3 / 40, 2 / 40] : List ℚ)) ∧
    ¬ (0 : ℚ) ∈ (((ADSR.init (1 / 10) (1 / 10) (1 / 2) (1 / 5)).run c2ops).1.drop 30).take 20 := by
  have h : (((ADSR.init (1 / 10) (1 / 10) (1 / 2) (1 / 5)).run c2ops).1.drop 30).take 20 =
      ([1 / 2, 1 / 2, 19 / 40, 18 / 40, 17 / 40, 16 / 40, 15 / 40, 14 / 40,
        13 / 40, 12 / 40, 11 / 40, 10 / 40, 9 / 40, 8 / 40, 7 / 40, 6 / 40,
        5 / 40, 4 / 40, 3 / 40, 2 / 40] : List ℚ) := by
    norm_num [c2ops, ADSR.run, ADSR.get_amplitude, ADSR.init, ADSR.press,
      ADSR.unpress, List.replicate]
  refine ⟨h, ?_⟩
  rw [h]
  norm_num

set_option maxRecDepth 10000 in
set_option maxHeartbeats 1000000 in
/-- Claim C2 amended: in the same scenario the amplitude does reach
exactly 1 at the attack/decay boundary (ticks 11 and 12 after the
press), does equal 0.5 on every sustain tick while pressed, and after
the unpress it first returns 0 on the 22nd further tick — within
release + 2·dt seconds, the two extra ticks being the
sustain-to-release transition tick and the one-tick boundary lag of the
release ramp.  The full amplitude trace of the run is listed. -/
theorem adsr_scenario_amended :
    ((ADSR.init (1 / 10) (1 / 10) (1 / 2) (1 / 5)).run c2ops).1 =
      ([0, 1 / 10, 2 / 10, 3 / 10, 4 / 10, 5 / 10, 6 / 10, 7 / 10, 8 / 10,
        9 / 10, 1, 1] : List ℚ) ++
      [1, 19 / 20, 18 / 20, 17 / 20, 16 / 20, 15 / 20, 14 / 20, 13 / 20,
        12 / 20, 11 / 20, 1 / 2, 1 / 2] ++
      List.replicate 6 (1 / 2) ++
      [1 / 2, 1 / 2, 19 / 40, 18 / 40, 17 / 40, 16 / 40, 15 / 40, 14 / 40,
        13 / 40, 12 / 40, 11 / 40, 10 / 40, 9 / 40, 8 / 40, 7 / 40, 6 / 40,
        5 / 40, 4 / 40, 3 / 40, 2 / 40, 1 / 40, 0] := by
  norm_num [c2ops, ADSR.run, ADSR.get_amplitude, ADSR.init, ADSR.press,
    ADSR.unpress, List.replicate]

/-- Claim C7: the note names A4, A5 and A3 convert to exactly 440, 880
and 220 Hz (the parsed exponents are 0, 1 and -1, and 440 * 2^0 = 440,
440 * 2^1 = 880, 440 * 2^(-1) = 220 hold exactly). -/
theorem note_freq_A4_A5_A3 :
    Note.note_str2freq ['A', '4'] = some 440 ∧
    Note.note_str2freq ['A', '5'] = some 880 ∧
    Note.note_str2freq ['A', '3'] = some 220 := by
  have h4 : Note.parseNote ['A', '4'] = some 0 := by
    norm_num +decide [Note.parseNote, Note.lookupBase, Note.base_notes, pyFind,
      pyInt, digitsVal, pyFloat, decimalVal, show ('4').toNat = 52 from rfl]
  have h5 : Note.parseNote ['A', '5'] = some 1 := by
    norm_num +decide [Note.parseNote, Note.lookupBase, Note.base_notes, pyFind,
      pyInt, digitsVal, pyFloat, decimalVal, show ('5').toNat = 53 from rfl]
  have h3 : Note.parseNote ['A', '3'] = some (-1) := by
    norm_num +decide [Note.parseNote, Note.lookupBase, Note.base_notes, pyFind,
      pyInt, digitsVal, pyFloat, decimalVal, show ('3').toNat = 51 from rfl]
  refine ⟨?_, ?_, ?_⟩
  · rw [Note.note_str2freq, h4]
    norm_num [Real.rpow_zero]
  · rw [Note.note_str2freq, h5]
    norm_num [Real.rpow_one]
  · rw [Note.note_str2freq, h3]
    norm_num [Real.rpow_neg_one]

/-- Claim C5 is false on the code: a negative index inside [-len, 0)
does not fail — Python list indexing counts from the end — so the call
with i = -1 on the scale [0, 2, 4] returns the frequency of the last
scale degree 4 instead of failing with an IndexError. -/
theorem scale_degree_negative_index_no_error :
    get_freq_from_scale_degree (-1) 440 [0, 2, 4] =
      some (get_freq_from_interval 440 4) := rfl

/-- Claim C5 amended: for 0 ≤ i < len the call returns
frequency_from_interval(base, scale[i]); for -len ≤ i < 0 it returns
frequency_from_interval(base, scale[len + i]) — Python negative
indexing, with no failure; it fails with an IndexError exactly when
i ≥ len or i < -len. -/
theorem scale_degree_amended (i : ℤ) (base : ℝ) (scale : List ℚ) :
    (0 ≤ i → i < (scale.length : ℤ) →
      get_freq_from_scale_degree i base scale =
        some (get_freq_from_interval base (scale.getD i.toNat 0))) ∧
    (-(scale.length : ℤ) ≤ i → i < 0 →
      get_freq_from_scale_degree i base scale =
        some (get_freq_from_interval base
          (scale.getD ((scale.length : ℤ) + i).toNat 0))) ∧
    ((i < -(scale.length : ℤ) ∨ (scale.length : ℤ) ≤ i) →
      get_freq_from_scale_degree i base scale = none) := by
  refine ⟨?_, ?_, ?_⟩
  · intro h1 h2
    have hlt : i.toNat < scale.length := by omega
    simp [get_freq_from_scale_degree, listGetPy, h1, List.get?_eq_getElem?,
      List.getElem?_eq_getElem hlt, List.getD_eq_getElem?_getD]
  · intro h1 h2
    have hn : ¬ (0 ≤ i) := by omega
    have hp : 0 ≤ (scale.length : ℤ) + i := by omega
    have hlt : ((scale.length : ℤ) + i).toNat < scale.length := by omega
    simp [get_freq_from_scale_degree, listGetPy, hn, hp, List.get?_eq_getElem?,
      List.getElem?_eq_getElem hlt, List.getD_eq_getElem?_getD]
  · intro h
    rcases h with h | h
    · have hn : ¬ (0 ≤ i) := by omega
      have hn2 : ¬ (0 ≤ (scale.length : ℤ) + i) := by omega
      simp [get_freq_from_scale_degree, listGetPy, hn, hn2]
    · have h1 : 0 ≤ i := by omega
      have hge : scale.length ≤ i.toNat := by omega
      simp [get_freq_from_scale_degree, listGetPy, h1, List.get?_eq_getElem?,
        List.getElem?_eq_none hge]

/-- Witness for C5 at the in-range index 1 of the scale [0, 2, 4]. -/
theorem scale_degree_amended_witness :
    get_freq_from_scale_degree 1 440 [0, 2, 4] =
      some (get_freq_from_interval 440 2) :=
  (scale_degree_amended 1 440 [0, 2, 4]).1 (by decide) (by decide)

/-- The state invariant behind the ADSR range property: positive ramp
durations, a sustain level inside [0, 1], and a non-negative elapsed
time in the current status. -/
def ADSR.Good (s : ADSR) : Prop :=
  0 < s.attack ∧ 0 < s.decay ∧ 0 < s.release ∧
    0 ≤ s.sustain ∧ s.sustain ≤ 1 ∧ 0 ≤ s.t

/-- One get_amplitude call from a good state with a non-negative dt
returns an amplitude in [0, 1] and leaves a good state: the transition
checks fire before the linear ramps can leave the interval. -/
lemma ADSR.get_amplitude_bounds (s : ADSR) (dt : ℚ) (hg : s.Good)
    (hdt : 0 ≤ dt) :
    (0 ≤ (s.get_amplitude dt).1 ∧ (s.get_amplitude dt).1 ≤ 1) ∧
      (s.get_amplitude dt).2.Good := by
  obtain ⟨ha, hd, hr, hs0, hs1, ht⟩ := hg
  have htdt : 0 ≤ s.t + dt := by linarith
  cases hst : s.status with
  | none =>
      exact ⟨by simp [ADSR.get_amplitude, hst], by
        simp only [ADSR.get_amplitude, hst]
        exact ⟨ha, hd, hr, hs0, hs1, ht⟩⟩
  | some st =>
      cases st with
      | attack =>
          by_cases h : s.attack < s.t
          · exact ⟨by simp [ADSR.get_amplitude, hst, h],
              by simp only [ADSR.get_amplitude, hst, if_pos h]
                 exact ⟨ha, hd, hr, hs0, hs1, le_refl 0⟩⟩
          · have hle : s.t ≤ s.attack := not_lt.1 h
            refine ⟨?_, ?_⟩
            · simp only [ADSR.get_amplitude, hst, if_neg h]
              exact ⟨div_nonneg ht ha.le, (div_le_one ha).2 hle⟩
            · simp only [ADSR.get_amplitude, hst, if_neg h]
              exact ⟨ha, hd, hr, hs0, hs1, htdt⟩
      | decay =>
          by_cases h : s.decay < s.t
          · exact ⟨by simp [ADSR.get_amplitude, hst, h, hs0, hs1],
              by simp only [ADSR.get_amplitude, hst, if_pos h]
                 exact ⟨ha, hd, hr, hs0, hs1, le_refl 0⟩⟩
          · have hle : s.t ≤ s.decay := not_lt.1 h
            have hq0 : 0 ≤ (1 - s.sustain) * s.t / s.decay :=
              div_nonneg (mul_nonneg (by linarith) ht) hd.le
            have hq1 : (1 - s.sustain) * s.t / s.decay ≤ 1 - s.sustain := by
              rw [div_le_iff₀ hd]
              calc (1 - s.sustain) * s.t ≤ (1 - s.sustain) * s.decay :=
                    mul_le_mul_of_nonneg_left hle (by linarith)
                _ = (1 - s.sustain) * s.decay := rfl
            refine ⟨?_, ?_⟩
            · simp only [ADSR.get_amplitude, hst, if_neg h]
              constructor <;> linarith
            · simp only [ADSR.get_amplitude, hst, if_neg h]
              exact ⟨ha, hd, hr, hs0, hs1, htdt⟩
      | sustain =>
          by_cases h : s.pressed
          · exact ⟨by simp [ADSR.get_amplitude, hst, h, hs0, hs1],
              by simp only [ADSR.get_amplitude, hst, if_pos h]
                 exact ⟨ha, hd, hr, hs0, hs1, ht⟩⟩
          · exact ⟨by simp [ADSR.get_amplitude, hst, h, hs0, hs1],
              by simp only [ADSR.get_amplitude, hst, if_neg h]
                 exact ⟨ha, hd, hr, hs0, hs1, le_refl 0⟩⟩
      | release =>
          by_cases h : s.release < s.t
          · exact ⟨by simp [ADSR.get_amplitude, hst, h],
              by simp only [ADSR.get_amplitude, hst, if_pos h]
                 exact ⟨ha, hd, hr, hs0, hs1, le_refl 0⟩⟩
          · have hle : s.t ≤ s.release := not_lt.1 h
            have h1 : s.t / s.release ≤ 1 := (div_le_one hr).2 hle
            have h2 : 0 ≤ s.t / s.release := div_nonneg ht hr.le
            refine ⟨?_, ?_⟩
            · simp only [ADSR.get_amplitude, hst, if_neg h]
              constructor
              · exact mul_nonneg hs0 (by linarith)
              · nlinarith
            · simp only [ADSR.get_amplitude, hst, if_neg h]
              exact ⟨ha, hd, hr, hs0, hs1, htdt⟩

/-- Every amplitude collected along a run from a good state, where every
get_amplitude call uses a non-negative dt, lies in [0, 1]. -/
lemma ADSR.run_bounds (s : ADSR) (ops : List AdsrOp) (hg : s.Good)
    (hops : ∀ dt : ℚ, AdsrOp.amp dt ∈ ops → 0 ≤ dt) :
    ∀ y ∈ (s.run ops).1, 0 ≤ y ∧ y ≤ 1 := by
  induction ops generalizing s with
  | nil => simp [ADSR.run]
  | cons op ops ih =>
      cases op with
      | press =>
          intro y hy
          simp only [ADSR.run] at hy
          refine ih s.press ⟨hg.1, hg.2.1, hg.2.2.1, hg.2.2.2.1,
            hg.2.2.2.2.1, le_refl 0⟩ ?_ y hy
          exact fun dt hdt => hops dt (List.mem_cons_of_mem _ hdt)
      | unpress =>
          intro y hy
          simp only [ADSR.run] at hy
          refine ih s.unpress ⟨hg.1, hg.2.1, hg.2.2.1, hg.2.2.2.1,
            hg.2.2.2.2.1, hg.2.2.2.2.2⟩ ?_ y hy
          exact fun dt hdt => hops dt (List.mem_cons_of_mem _ hdt)
      | amp dt =>
          have hdt : 0 ≤ dt := hops dt (List.mem_cons_self _ _)
          have hb := ADSR.get_amplitude_bounds s dt hg hdt
          intro y hy
          simp only [ADSR.run, List.mem_cons] at hy
          rcases hy with hy | hy
          · exact hy ▸ hb.1
          · refine ih (s.get_amplitude dt).2 hb.2 ?_ y hy
            exact fun dt2 hdt2 => hops dt2 (List.mem_cons_of_mem _ hdt2)

/-- Claim C9: for every ADSR envelope built with positive attack, decay
and release times and a sustain level in [0, 1], and every interleaving
of press, unpress and get_amplitude calls with non-negative dt values,
every returned amplitude lies in [0, 1]. -/
theorem adsr_amplitude_in_unit_interval (a d su r : ℚ) (ha : 0 < a)
    (hd : 0 < d) (hr : 0 < r) (hsu0 : 0 ≤ su) (hsu1 : su ≤ 1)
    (ops : List AdsrOp) (hops : ∀ dt : ℚ, AdsrOp.amp dt ∈ ops → 0 ≤ dt)
    (y : ℚ) (hy : y ∈ ((ADSR.init a d su r).run ops).1) :
    0 ≤ y ∧ y ≤ 1 :=
  ADSR.run_bounds (ADSR.init a d su r) ops
    ⟨ha, hd, hr, hsu0, hsu1, le_refl 0⟩ hops y hy

/-- Witness for C9: a concrete press followed by one tick of dt = 1
produces the amplitude 0, which lies in [0, 1]. -/
theorem adsr_amplitude_in_unit_interval_witness :
    0 ≤ (((ADSR.init 1 1 (1 / 2) 1).run
        [AdsrOp.press, AdsrOp.amp 1]).1.headD 0) ∧
      (((ADSR.init 1 1 (1 / 2) 1).run
        [AdsrOp.press, AdsrOp.amp 1]).1.headD 0) ≤ 1 := by
  refine adsr_amplitude_in_unit_interval 1 1 (1 / 2) 1 (by norm_num)
    (by norm_num) (by norm_num) (by norm_num) (by norm_num)
    [AdsrOp.press, AdsrOp.amp 1] ?_ _ ?_
  · intro dt hdt
    simp only [List.mem_cons, List.not_mem_nil, or_false] at hdt
    rcases hdt with hdt | hdt
    · exact absurd hdt (by simp)
    · rw [AdsrOp.amp.injEq] at hdt
      rw [hdt]
      norm_num
  · norm_num [ADSR.run, ADSR.init, ADSR.press, ADSR.get_amplitude]

/-- A concrete deterministic random source over ℕ states used to
instantiate the C8 determinism statement. -/
def natSource : RandomSource ℕ where
  fromSeed := fun n => n
  uniform := fun s a b => ((a + b) / 2, s + 1)
  choice := fun s l => (l.headD 0, s + 1)

/-- Claim C8: two ScaleRandomPlayer instances driven by the same
deterministic random source and constructed from the same seed, scale,
base note and duration bounds return, for any identical sequence of
get_note(dt) calls, identical pitch sequences and identical internal
note durations.  The generator state is owned per instance, so the two
runs cannot interfere. -/
theorem scaleRandomPlayer_deterministic {σ : Type} (R : RandomSource σ)
    (seed1 seed2 : ℕ) (sc1 sc2 : List ℚ) (b1 b2 mi1 mi2 ma1 ma2 : Knob)
    (dts : List ℚ) (h1 : seed1 = seed2) (h2 : sc1 = sc2) (h3 : b1 = b2)
    (h4 : mi1 = mi2) (h5 : ma1 = ma2) :
    ScaleRandomPlayer.run R
        (ScaleRandomPlayer.init R sc1 b1 seed1 mi1 ma1) dts =
      ScaleRandomPlayer.run R
        (ScaleRandomPlayer.init R sc2 b2 seed2 mi2 ma2) dts := by
  subst h1
  subst h2
  subst h3
  subst h4
  subst h5
  rfl

/-- Witness for C8 at a concrete source, seed, scale, knobs and call
sequence. -/
theorem scaleRandomPlayer_deterministic_witness :
    ScaleRandomPlayer.run natSource
        (ScaleRandomPlayer.init natSource [0, 2, 4] (Knob.const 440) 7
          (Knob.const (1 / 25)) (Knob.const 2)) [1 / 2, 1 / 2] =
      ScaleRandomPlayer.run natSource
        (ScaleRandomPlayer.init natSource [0, 2, 4] (Knob.const 440) 7
          (Knob.const (1 / 25)) (Knob.const 2)) [1 / 2, 1 / 2] :=
  scaleRandomPlayer_deterministic natSource 7 7 [0, 2, 4] [0, 2, 4]
    (Knob.const 440) (Knob.const 440) (Knob.const (1 / 25))
    (Knob.const (1 / 25)) (Knob.const 2) (Knob.const 2) [1 / 2, 1 / 2]
    rfl rfl rfl rfl rfl

set_option maxRecDepth 100000 in
/-- Folding the eight bits of a byte back through bitsToByte recovers
the byte. -/
lemma bitsToByte_byteToBits : ∀ b < 256, bitsToByte (byteToBits b) = b := by
  decide

/-- Claim C10: bits2float is a left inverse of float2bits.  Floats that
are exactly representable in single precision are identified with their
32-bit patterns, under which struct.pack("<f") / unpack are exactly the
little-endian four-byte serialization modelled by pack / unpack: for
every 32-bit pattern the round trip is the identity, and float2bits
emits exactly 32 bits. -/
theorem bits2float_float2bits_id (n : ℕ) (h : n < 4294967296) :
    bits2float (float2bits n) = n ∧ (float2bits n).length = 32 := by
  constructor
  · have e : bits2float (float2bits n) =
        bitsToByte (byteToBits (n % 256)) +
          256 * bitsToByte (byteToBits (n / 256 % 256)) +
          65536 * bitsToByte (byteToBits (n / 65536 % 256)) +
          16777216 * bitsToByte (byteToBits (n / 16777216 % 256)) := rfl
    rw [e, bitsToByte_byteToBits _ (Nat.mod_lt _ (by norm_num)),
      bitsToByte_byteToBits _ (Nat.mod_lt _ (by norm_num)),
      bitsToByte_byteToBits _ (Nat.mod_lt _ (by norm_num)),
      bitsToByte_byteToBits _ (Nat.mod_lt _ (by norm_num))]
    omega
  · rfl

/-- Witness for C10 at the bit pattern of the single-precision float
1.0. -/
theorem bits2float_float2bits_id_witness :
    bits2float (float2bits 1065353216) = 1065353216 ∧
      (float2bits 1065353216).length = 32 :=
  bits2float_float2bits_id 1065353216 (by norm_num)

end Waveforms
